import Mathlib

/-!
# Verification of the tetris simulation core

Shallow embedding of the simulation core of the `piotrek-szczygiel/tetris`
repository (`matrix.rs`, `score.rs`, `holder.rs`, `gameplay.rs`, `game.rs`),
together with theorems settling the specification claims.

Machine integers (`i32`, `usize`) are modelled as `Int`/`Nat`; the values
involved never approach the overflow range.  `std::time::Duration` is
modelled as a `Nat` number of milliseconds, matching the millisecond
granularity of every constant the code compares against.
-/

/-- `matrix.rs`: `pub const WIDTH: i32 = 10`. -/
def WIDTH : Int := 10

/-- `matrix.rs`: `pub const HEIGHT: i32 = 20`. -/
def HEIGHT : Int := 20

/-- `matrix.rs`: `pub const VANISH: i32 = 20`. -/
def VANISH : Int := 20

/-- A field grid: rows of cell values, `0` = empty (Rust `Grid`,
a `(HEIGHT+VANISH) × WIDTH` array; the dimension is an invariant `WF`
below rather than part of the type). -/
abbrev Grid := List (List Nat)

/-- Read cell `(y, x)` of a grid; out-of-range reads default to `0`
(they never happen on the verified paths). -/
def cellN (g : Grid) (y x : Nat) : Nat := (g.getD y []).getD x 0

/-- Write cell `(y, x)` of a grid (Rust `self.grid[y][x] = v`). -/
def setCellN (g : Grid) (y x : Nat) (v : Nat) : Grid :=
  g.set y ((g.getD y []).set x v)

/-- Well-formedness of a field grid: 40 rows of 10 cells, the invariant
the Rust array type `[[usize; WIDTH]; HEIGHT + VANISH]` enforces. -/
def WF (g : Grid) : Prop :=
  g.length = 40 ∧ ∀ y < 40, (g.getD y []).length = 10

instance : DecidablePred WF := fun g => by
  unfold WF; infer_instance

/-- The per-rotation grid a piece exposes to the field
(`piece.get_grid()` in `matrix.rs`): bounding-box trim offsets, bounding-box
size, and the cell grid itself.  `matrix.rs` consumes exactly these fields. -/
structure PieceGrid where
  offset_x : Int
  offset_y : Int
  width : Int
  height : Int
  grid : List (List Nat)
deriving DecidableEq

/-- A falling piece as seen by `matrix.rs`: its field position and its
current rotation's grid. -/
structure Piece where
  x : Int
  y : Int
  grid : PieceGrid
deriving DecidableEq

/-- Cell `(my, mx)` of the piece's bounding box: Rust
`grid.grid[(my + grid.offset_y) as usize][(mx + grid.offset_x) as usize]`. -/
def pieceCell (p : Piece) (my mx : Nat) : Nat :=
  cellN p.grid.grid ((my + p.grid.offset_y).toNat) ((mx + p.grid.offset_x).toNat)

/-- The field (`Matrix` in `matrix.rs`): the grid plus the optional
line-clear animation state `(row indices, elapsed time)`. -/
structure Playfield where
  grid : Grid
  clearing : Option (List Nat × Nat)
deriving DecidableEq

/-- The bounding-box test of `Matrix::collision`:
`x < 0 || x + grid.width > WIDTH || y < 0 || y + grid.height > HEIGHT + VANISH`. -/
def bboxOut (p : Piece) : Prop :=
  p.x + p.grid.offset_x < 0 ∨
  p.x + p.grid.offset_x + p.grid.width > WIDTH ∨
  p.y + p.grid.offset_y < 0 ∨
  p.y + p.grid.offset_y + p.grid.height > HEIGHT + VANISH

instance : DecidablePred bboxOut := fun p => by
  unfold bboxOut; infer_instance

/-- The cell-overlap loop of `Matrix::collision` (reached only when the
bounding box is inside the field, so the `as usize` casts are exact). -/
def Playfield.overlaps (m : Playfield) (p : Piece) : Bool :=
  let x := p.x + p.grid.offset_x
  let y := p.y + p.grid.offset_y
  (List.range p.grid.height.toNat).any fun my =>
    (List.range p.grid.width.toNat).any fun mx =>
      pieceCell p my mx != 0 && cellN m.grid (y.toNat + my) (x.toNat + mx) != 0

/-- `Matrix::collision`. -/
def Playfield.collision (m : Playfield) (p : Piece) : Bool :=
  if bboxOut p then true else m.overlaps p

/-- The sequence of grid writes `Matrix::lock` performs
(row-major double loop over the bounding box, writing only occupied
cells), as `(row, column, value)` triples. -/
def lockWrites (p : Piece) : List (Nat × Nat × Nat) :=
  let x := (p.x + p.grid.offset_x).toNat
  let y := (p.y + p.grid.offset_y).toNat
  (List.range p.grid.height.toNat).flatMap fun my =>
    (List.range p.grid.width.toNat).filterMap fun mx =>
      let c := pieceCell p my mx
      if c ≠ 0 then some (y + my, x + mx, c) else none

/-- Copy the piece's occupied cells into the grid (the write loop of
`Matrix::lock`). -/
def placeGrid (g : Grid) (p : Piece) : Grid :=
  (lockWrites p).foldl (fun acc w => setCellN acc w.1 w.2.1 w.2.2) g

/-- One row of `Matrix::get_full_rows`'s scan: every column occupied. -/
def row_full (row : List Nat) : Bool :=
  (List.range WIDTH.toNat).all fun x => row.getD x 0 != 0

/-- `Matrix::get_full_rows`: full row indices, scanned top to bottom. -/
def get_full_rows (g : Grid) : List Nat :=
  (List.range (HEIGHT + VANISH).toNat).filter fun y => row_full (g.getD y [])

/-- Zero the first `n` cells of a row, left to right (the inner loop of
`Matrix::erase_rows`). -/
def zeroCells (row : List Nat) : Nat → List Nat
  | 0 => row
  | n + 1 => (zeroCells row n).set n 0

/-- `Matrix::erase_rows`: zero every cell of each listed row. -/
def erase_rows (g : Grid) : List Nat → Grid
  | [] => g
  | y :: rest => erase_rows (g.set y (zeroCells (g.getD y []) WIDTH.toNat)) rest

/-- The inner loop of `Matrix::collapse_rows` for one cleared row `r`:
`for y in (1..=r).rev() { grid[y] = grid[y-1] }`.  The loop runs from
`y = r` downward, so each read sees the original row. -/
def shiftDown (g : Grid) : Nat → Grid
  | 0 => g
  | r + 1 => shiftDown (g.set (r + 1) (g.getD r [])) r

/-- `Matrix::collapse_rows`: collapse each cleared row in the listed
order (ascending, as produced by `get_full_rows`). -/
def collapse_rows (g : Grid) : List Nat → Grid
  | [] => g
  | r :: rest => collapse_rows (shiftDown g r) rest

/-- `Matrix::clear_full_rows`: detect full rows, erase their cells, and
return the new clearing state with zero elapsed time. -/
def clear_full_rows (g : Grid) : Grid × (List Nat × Nat) :=
  let rows := get_full_rows g
  (erase_rows g rows, (rows, 0))

/-- `Matrix::lock`: refuse a piece resting entirely inside the vanish
zone (`y + grid.height <= VANISH`, returning `false` and leaving the
field untouched); otherwise copy the occupied cells in and run
`clear_full_rows`, returning `true`. -/
def Playfield.lock (m : Playfield) (p : Piece) : Bool × Playfield :=
  if p.y + p.grid.offset_y + p.grid.height ≤ VANISH then (false, m)
  else
    let c := clear_full_rows (placeGrid m.grid p)
    (true, ⟨c.1, some c.2⟩)

/-- `Matrix::blocked`: a clearing animation is in progress. -/
def Playfield.blocked (m : Playfield) : Bool := m.clearing.isSome

/-- `Matrix::update` with the frame's time delta: advance the clearing
timer; once it exceeds 500 ms, collapse the cleared rows and drop the
clearing state. -/
def Playfield.update (m : Playfield) (delta : Nat) : Playfield :=
  match m.clearing with
  | none => m
  | some (rows, dur) =>
    if 500 < dur + delta then ⟨collapse_rows m.grid rows, none⟩
    else ⟨m.grid, some (rows, dur + delta)⟩

/-- Translation of a piece by `(dx, dy)` — the tentative position
`Piece::shift` tests against `Matrix::collision`. -/
def shifted (p : Piece) (dx dy : Int) : Piece :=
  { p with x := p.x + dx, y := p.y + dy }

/-! ## List helper lemmas -/

theorem getD_set_self {α : Type} (l : List α) (i : Nat) (a d : α)
    (h : i < l.length) : (l.set i a).getD i d = a := by
  have h' : i < (l.set i a).length := by simpa using h
  rw [List.getD_eq_getElem _ _ h', List.getElem_set_self]

theorem getD_set_ne {α : Type} (l : List α) {i j : Nat} (a d : α)
    (h : i ≠ j) : (l.set i a).getD j d = l.getD j d := by
  by_cases hj : j < l.length
  · have hj' : j < (l.set i a).length := by simpa using hj
    rw [List.getD_eq_getElem _ _ hj', List.getD_eq_getElem _ _ hj,
      List.getElem_set_ne h]
  · rw [List.getD_eq_default _ _ (by simpa using le_of_not_lt hj),
      List.getD_eq_default _ _ (le_of_not_lt hj)]

/-! ## Example fixtures used by the witnesses -/

/-- A well-formed field: empty except for the bottom row, which is full in
columns 0–7. -/
def exGrid : Grid :=
  (List.replicate 39 (List.replicate 10 0)) ++ [[1, 1, 1, 1, 1, 1, 1, 1, 0, 0]]

/-- A 1×2 horizontal domino resting on the floor in columns 8–9: locking it
completes the bottom row. -/
def exPiece : Piece :=
  { x := 8, y := 39,
    grid := { offset_x := 0, offset_y := 0, width := 2, height := 1, grid := [[1, 1]] } }

/-- The example playfield, no clear in progress. -/
def exM : Playfield := ⟨exGrid, none⟩

/-- A 2×2 square sitting at the very top, entirely inside the vanish zone. -/
def exVanishPiece : Piece :=
  { x := 0, y := 0,
    grid := { offset_x := 0, offset_y := 0, width := 2, height := 2, grid := [[1, 1], [1, 1]] } }

/-- A single-cell piece placed on the occupied bottom-left cell of `exGrid`. -/
def exOverlapPiece : Piece :=
  { x := 0, y := 39,
    grid := { offset_x := 0, offset_y := 0, width := 1, height := 1, grid := [[1]] } }

/-! ## C2: locking inside the vanish zone -/

/-- C2: if a piece's final resting position leaves its entire bounding box
inside the vanish zone (bounding-box top plus bounding-box height at most
`VANISH`), `Matrix::lock` reports the collision outcome (`false`, which the
callers map to `Locked::Collision`, never `Success`) and copies no cell into
the field — the playfield is returned unchanged. -/
theorem lock_vanish_zone_collision (m : Playfield) (p : Piece)
    (h : p.y + p.grid.offset_y + p.grid.height ≤ VANISH) :
    m.lock p = (false, m) := by
  unfold Playfield.lock
  rw [if_pos h]

/-- Witness for `lock_vanish_zone_collision` at a concrete piece fully inside
the vanish zone. -/
theorem lock_vanish_zone_collision_witness :
    (exVanishPiece.y + exVanishPiece.grid.offset_y + exVanishPiece.grid.height ≤ VANISH)
    ∧ exM.lock exVanishPiece = (false, exM) :=
  ⟨by decide, lock_vanish_zone_collision exM exVanishPiece (by decide)⟩

/-! ## C4: collision soundness -/

/-- C4: `Matrix::collision` returns `true` whenever the piece's bounding box,
translated to its field position, exits `[0, WIDTH)` horizontally or
`[0, HEIGHT + VANISH)` vertically, and whenever an occupied cell of the piece
overlaps an occupied field cell; in particular any translation by `(dx, 0)`
or `(0, dy)` that lands the bounding box outside those bounds reports a
collision. -/
theorem collision_spec (m : Playfield) (p : Piece) :
    (bboxOut p → m.collision p = true)
    ∧ (∀ my mx : Nat, my < p.grid.height.toNat → mx < p.grid.width.toNat →
        pieceCell p my mx ≠ 0 →
        cellN m.grid ((p.y + p.grid.offset_y).toNat + my)
          ((p.x + p.grid.offset_x).toNat + mx) ≠ 0 →
        m.collision p = true)
    ∧ (∀ dx : Int, bboxOut (shifted p dx 0) → m.collision (shifted p dx 0) = true)
    ∧ (∀ dy : Int, bboxOut (shifted p 0 dy) → m.collision (shifted p 0 dy) = true) := by
  have hout : ∀ q : Piece, bboxOut q → m.collision q = true := by
    intro q hq
    unfold Playfield.collision
    rw [if_pos hq]
  refine ⟨hout p, ?_, fun dx => hout _, fun dy => hout _⟩
  intro my mx hmy hmx hpc hcell
  unfold Playfield.collision
  split
  · rfl
  · unfold Playfield.overlaps
    refine List.any_eq_true.2 ⟨my, List.mem_range.2 hmy, ?_⟩
    refine List.any_eq_true.2 ⟨mx, List.mem_range.2 hmx, ?_⟩
    simp only [Bool.and_eq_true, bne_iff_ne, ne_eq]
    exact ⟨hpc, hcell⟩

/-- Witness for `collision_spec`: its overlap clause at the example field and
an overlapping single-cell piece, and its bounding-box clause via a
translation off the left wall. -/
theorem collision_spec_witness :
    (pieceCell exOverlapPiece 0 0 ≠ 0
      ∧ cellN exM.grid 39 0 ≠ 0
      ∧ exM.collision exOverlapPiece = true)
    ∧ (bboxOut (shifted exOverlapPiece (-1) 0)
      ∧ exM.collision (shifted exOverlapPiece (-1) 0) = true) :=
  ⟨⟨by decide, by decide,
      (collision_spec exM exOverlapPiece).2.1 0 0 (by decide) (by decide)
        (by decide) (by decide)⟩,
    by decide,
    (collision_spec exM exOverlapPiece).2.2.1 (-1) (by decide)⟩

/-! ## C10: lock writes stay in bounds -/

/-- C10: when `Matrix::collision` reports no collision for a piece, every
grid write `Matrix::lock` would perform for that piece addresses an in-bounds
cell — row in `[0, HEIGHT + VANISH)` and column in `[0, WIDTH)`.  `lock`
itself checks only the vanish zone, so this freedom from out-of-bounds
indexing rests exactly on the `collision` precondition. -/
theorem lock_writes_in_bounds (m : Playfield) (p : Piece)
    (h : m.collision p = false) :
    ∀ w ∈ lockWrites p, w.1 < (HEIGHT + VANISH).toNat ∧ w.2.1 < WIDTH.toNat := by
  have hnb : ¬ bboxOut p := by
    intro hb
    unfold Playfield.collision at h
    rw [if_pos hb] at h
    exact Bool.noConfusion h
  unfold bboxOut at hnb
  push_neg at hnb
  obtain ⟨h1, h2, h3, h4⟩ := hnb
  intro w hw
  unfold lockWrites at hw
  simp only [List.mem_flatMap, List.mem_filterMap, List.mem_range] at hw
  obtain ⟨my, hmy, mx, hmx, hsome⟩ := hw
  by_cases hc : pieceCell p my mx ≠ 0
  · rw [if_pos hc] at hsome
    have hw1 : ((p.y + p.grid.offset_y).toNat + my,
        (p.x + p.grid.offset_x).toNat + mx, pieceCell p my mx) = w :=
      Option.some_injective _ hsome
    subst hw1
    simp only [WIDTH, HEIGHT, VANISH] at h2 h4 ⊢
    refine ⟨?_, ?_⟩ <;> omega
  · rw [if_neg hc] at hsome
    exact absurd hsome (by simp)

/-- Witness for `lock_writes_in_bounds` at the example field and domino. -/
theorem lock_writes_in_bounds_witness :
    exM.collision exPiece = false
    ∧ ∀ w ∈ lockWrites exPiece,
        w.1 < (HEIGHT + VANISH).toNat ∧ w.2.1 < WIDTH.toNat :=
  ⟨by decide, lock_writes_in_bounds exM exPiece (by decide)⟩

/-! ## Lemmas about row erasure -/

theorem length_zeroCells (row : List Nat) (n : Nat) :
    (zeroCells row n).length = row.length := by
  induction n with
  | zero => rfl
  | succ n ih => simp [zeroCells, ih]

theorem zeroCells_getD_lt (row : List Nat) (n x : Nat) (h : x < n) :
    (zeroCells row n).getD x 0 = 0 := by
  induction n with
  | zero => omega
  | succ n ih =>
    show ((zeroCells row n).set n 0).getD x 0 = 0
    by_cases hx : x = n
    · subst hx
      by_cases hl : x < (zeroCells row x).length
      · exact getD_set_self _ _ _ _ hl
      · rw [List.getD_eq_default _ _ (by simpa using le_of_not_lt hl)]
    · rw [getD_set_ne _ _ _ (fun he => hx he.symm)]
      exact ih (by omega)

theorem length_erase_rows (rows : List Nat) (g : Grid) :
    (erase_rows g rows).length = g.length := by
  induction rows generalizing g with
  | nil => rfl
  | cons y rest ih =>
    show (erase_rows (g.set y (zeroCells (g.getD y []) WIDTH.toNat)) rest).length = g.length
    rw [ih, List.length_set]

theorem erase_rows_getD_not_mem (rows : List Nat) (g : Grid) (i : Nat)
    (hi : i ∉ rows) : (erase_rows g rows).getD i [] = g.getD i [] := by
  induction rows generalizing g with
  | nil => rfl
  | cons y rest ih =>
    have hiy : y ≠ i := fun h => hi (h ▸ List.mem_cons_self y rest)
    show (erase_rows (g.set y (zeroCells (g.getD y []) WIDTH.toNat)) rest).getD i [] = g.getD i []
    rw [ih _ (fun h => hi (List.mem_cons_of_mem _ h)), getD_set_ne _ _ _ hiy]

theorem erase_rows_zero (rows : List Nat) (g : Grid) (i : Nat)
    (hi : i ∈ rows) (x : Nat) (hx : x < 10) :
    cellN (erase_rows g rows) i x = 0 := by
  induction rows generalizing g with
  | nil => cases hi
  | cons y rest ih =>
    show cellN (erase_rows (g.set y (zeroCells (g.getD y []) WIDTH.toNat)) rest) i x = 0
    by_cases hmem : i ∈ rest
    · exact ih _ hmem
    · have hiy : i = y := by
        rcases List.mem_cons.1 hi with h | h
        · exact h
        · exact absurd h hmem
      subst hiy
      unfold cellN
      rw [erase_rows_getD_not_mem rest _ i hmem]
      by_cases hl : i < g.length
      · rw [getD_set_self _ _ _ _ hl]
        exact zeroCells_getD_lt _ _ _ (by simpa [WIDTH] using hx)
      · have hge : g.length ≤ i := le_of_not_lt hl
        rw [List.set_eq_of_length_le hge, List.getD_eq_default g [] hge]
        rfl

theorem erase_rows_row_length (rows : List Nat) (g : Grid) (i : Nat) :
    ((erase_rows g rows).getD i []).length = (g.getD i []).length := by
  induction rows generalizing g with
  | nil => rfl
  | cons y rest ih =>
    show ((erase_rows (g.set y (zeroCells (g.getD y []) WIDTH.toNat)) rest).getD i []).length
      = (g.getD i []).length
    rw [ih]
    by_cases hyi : y = i
    · subst hyi
      by_cases hl : y < g.length
      · rw [getD_set_self _ _ _ _ hl, length_zeroCells]
      · rw [List.set_eq_of_length_le (le_of_not_lt hl)]
    · rw [getD_set_ne _ _ _ hyi]

/-! ## Lemmas about the write loop of `lock` -/

theorem setCellN_length (g : Grid) (y x v : Nat) :
    (setCellN g y x v).length = g.length := List.length_set ..

theorem setCellN_row_length (g : Grid) (y x v i : Nat) :
    ((setCellN g y x v).getD i []).length = (g.getD i []).length := by
  unfold setCellN
  by_cases hyi : y = i
  · subst hyi
    by_cases hl : y < g.length
    · rw [getD_set_self _ _ _ _ hl, List.length_set]
    · rw [List.set_eq_of_length_le (le_of_not_lt hl)]
  · rw [getD_set_ne _ _ _ hyi]

theorem length_placeGrid (g : Grid) (p : Piece) :
    (placeGrid g p).length = g.length := by
  unfold placeGrid
  generalize lockWrites p = ws
  induction ws generalizing g with
  | nil => rfl
  | cons w rest ih => rw [List.foldl_cons, ih, setCellN_length]

theorem placeGrid_row_length (g : Grid) (p : Piece) (i : Nat) :
    ((placeGrid g p).getD i []).length = (g.getD i []).length := by
  unfold placeGrid
  generalize lockWrites p = ws
  induction ws generalizing g with
  | nil => rfl
  | cons w rest ih => rw [List.foldl_cons, ih, setCellN_row_length]

/-! ## Lemmas about row collapse -/

theorem length_shiftDown (r : Nat) (g : Grid) :
    (shiftDown g r).length = g.length := by
  induction r generalizing g with
  | zero => rfl
  | succ r ih =>
    show (shiftDown (g.set (r + 1) (g.getD r [])) r).length = g.length
    rw [ih, List.length_set]

theorem shiftDown_getD (r : Nat) (g : Grid) (hr : r < g.length) (y : Nat) :
    (shiftDown g r).getD y [] =
      if 1 ≤ y ∧ y ≤ r then g.getD (y - 1) [] else g.getD y [] := by
  induction r generalizing g with
  | zero => rw [if_neg (by omega)]; rfl
  | succ r ih =>
    show (shiftDown (g.set (r + 1) (g.getD r [])) r).getD y [] = _
    have hlen : r < (g.set (r + 1) (g.getD r [])).length := by
      rw [List.length_set]
      omega
    rw [ih _ hlen]
    by_cases h1 : 1 ≤ y ∧ y ≤ r
    · rw [if_pos h1, if_pos (show 1 ≤ y ∧ y ≤ r + 1 by omega),
        getD_set_ne _ _ _ (show r + 1 ≠ y - 1 by omega)]
    · rw [if_neg h1]
      by_cases h2 : y = r + 1
      · subst h2
        rw [if_pos (show 1 ≤ r + 1 ∧ r + 1 ≤ r + 1 by omega),
          getD_set_self _ _ _ _ hr]
        show g.getD r [] = g.getD (r + 1 - 1) []
        rfl
      · rw [if_neg (show ¬ (1 ≤ y ∧ y ≤ r + 1) by omega),
          getD_set_ne _ _ _ (show r + 1 ≠ y by omega)]

theorem length_collapse_rows (rows : List Nat) (g : Grid) :
    (collapse_rows g rows).length = g.length := by
  induction rows generalizing g with
  | nil => rfl
  | cons r rest ih =>
    show (collapse_rows (shiftDown g r) rest).length = g.length
    rw [ih, length_shiftDown]

/-- Correctness of `collapse_rows` on a strictly ascending list of cleared
rows (the order `get_full_rows` produces): every non-cleared row `i` ends up
shifted down by exactly the number of cleared rows strictly below it. -/
theorem collapse_rows_getD (rows : List Nat) (g : Grid)
    (hs : rows.Pairwise (· < ·)) (hb : ∀ r ∈ rows, r < g.length)
    (i : Nat) (hi : i < g.length) (hni : i ∉ rows) :
    (collapse_rows g rows).getD (i + (rows.filter (fun r => i < r)).length) []
      = g.getD i [] := by
  induction rows generalizing g i with
  | nil => simp [collapse_rows]
  | cons r rest ih =>
    have hr : r < g.length := hb r (List.mem_cons_self r rest)
    have hrest_gt : ∀ e ∈ rest, r < e := (List.pairwise_cons.1 hs).1
    have hs' : rest.Pairwise (· < ·) := (List.pairwise_cons.1 hs).2
    have hlen1 : (shiftDown g r).length = g.length := length_shiftDown r g
    have hb' : ∀ e ∈ rest, e < (shiftDown g r).length := by
      intro e he
      rw [hlen1]
      exact hb e (List.mem_cons_of_mem _ he)
    show (collapse_rows (shiftDown g r) rest).getD _ [] = g.getD i []
    by_cases hir : i < r
    · have hfi : ∀ e ∈ rest, (i + 1) < e := by
        intro e he
        have := hrest_gt e he
        omega
      have hIH := ih (shiftDown g r) hs' hb' (i + 1) (by omega)
        (fun hmem => absurd (hrest_gt _ hmem) (by omega))
      have hrw1 : rest.filter (fun s => decide ((i + 1) < s)) = rest :=
        List.filter_eq_self.2 (fun e he => decide_eq_true (hfi e he))
      have hrw2 : (r :: rest).filter (fun s => decide (i < s)) = r :: rest := by
        refine List.filter_eq_self.2 (fun e he => decide_eq_true ?_)
        rcases List.mem_cons.1 he with h | h
        · omega
        · have := hrest_gt e h
          omega
      have hsd : (shiftDown g r).getD (i + 1) [] = g.getD i [] := by
        rw [shiftDown_getD r g hr (i + 1), if_pos (show 1 ≤ i + 1 ∧ i + 1 ≤ r by omega)]
        have he : i + 1 - 1 = i := by omega
        rw [he]
      rw [hrw1, hsd] at hIH
      show (collapse_rows (shiftDown g r) rest).getD
        (i + ((r :: rest).filter (fun s => decide (i < s))).length) [] = g.getD i []
      rw [hrw2]
      have hidx : i + (r :: rest).length = (i + 1) + rest.length := by
        simp only [List.length_cons]
        omega
      rw [hidx]
      exact hIH
    · have hir' : r < i := by
        have : i ≠ r := fun h => hni (h ▸ List.mem_cons_self r rest)
        omega
      have hIH := ih (shiftDown g r) hs' hb' i (by omega)
        (fun hmem => hni (List.mem_cons_of_mem _ hmem))
      have hsd : (shiftDown g r).getD i [] = g.getD i [] := by
        rw [shiftDown_getD r g hr i, if_neg (by omega)]
      rw [hsd] at hIH
      have hrw : (r :: rest).filter (fun s => decide (i < s))
          = rest.filter (fun s => decide (i < s)) := by
        rw [List.filter_cons, if_neg (by simpa using (by omega : ¬ i < r))]
      show (collapse_rows (shiftDown g r) rest).getD
        (i + ((r :: rest).filter (fun s => decide (i < s))).length) [] = g.getD i []
      rw [hrw]
      exact hIH

/-! ## Lemmas about `get_full_rows` and well-formedness -/

theorem get_full_rows_pairwise (g : Grid) :
    (get_full_rows g).Pairwise (· < ·) :=
  List.Pairwise.filter _ (List.pairwise_lt_range _)

theorem get_full_rows_lt (g : Grid) : ∀ r ∈ get_full_rows g, r < 40 := by
  intro r hr
  have := (List.mem_filter.1 hr).1
  have h40 : (HEIGHT + VANISH).toNat = 40 := rfl
  rw [h40] at this
  exact List.mem_range.1 this

theorem WF_placeGrid (g : Grid) (p : Piece) (h : WF g) : WF (placeGrid g p) := by
  refine ⟨?_, ?_⟩
  · rw [length_placeGrid]
    exact h.1
  · intro y hy
    rw [placeGrid_row_length]
    exact h.2 y hy

theorem WF_erase_rows (rows : List Nat) (g : Grid) (h : WF g) :
    WF (erase_rows g rows) := by
  refine ⟨?_, ?_⟩
  · rw [length_erase_rows]
    exact h.1
  · intro y hy
    rw [erase_rows_row_length]
    exact h.2 y hy

theorem WF_shiftDown (r : Nat) (g : Grid) (h : WF g) (hr : r < 40) :
    WF (shiftDown g r) := by
  obtain ⟨hlen, hrow⟩ := h
  refine ⟨?_, ?_⟩
  · rw [length_shiftDown]
    exact hlen
  · intro y hy
    rw [shiftDown_getD r g (by omega) y]
    split
    · exact hrow (y - 1) (by omega)
    · exact hrow y hy

theorem WF_collapse_rows (rows : List Nat) (g : Grid) (h : WF g)
    (hb : ∀ r ∈ rows, r < 40) : WF (collapse_rows g rows) := by
  induction rows generalizing g with
  | nil => exact h
  | cons r rest ih =>
    show WF (collapse_rows (shiftDown g r) rest)
    exact ih _ (WF_shiftDown r g h (hb r (List.mem_cons_self r rest)))
      (fun e he => hb e (List.mem_cons_of_mem _ he))

/-! ## C1: full rows are erased at lock and collapsed by `update` -/

/-- C1: when locking a piece (at an in-bounds resting position past the
vanish-zone check) produces `n > 0` full rows, exactly those rows are zeroed
immediately and the clearing state is set to those row indices with zero
elapsed time; once the accumulated animation time exceeds the 500 ms clear
delay, `update` collapses the field so that every non-cleared row shifts down
by exactly the count of cleared rows below it, the grid dimensions are
unchanged (still 40 well-formed rows), and the clearing state becomes
absent. -/
theorem lock_clear_collapse (m : Playfield) (p : Piece) (d : Nat)
    (hwf : WF m.grid)
    (hin : ¬ bboxOut p)
    (hv : ¬ (p.y + p.grid.offset_y + p.grid.height ≤ VANISH))
    (hn : 0 < (get_full_rows (placeGrid m.grid p)).length)
    (hd : 500 < d) :
    (m.lock p).1 = true
    ∧ (m.lock p).2.clearing = some (get_full_rows (placeGrid m.grid p), 0)
    ∧ (∀ r ∈ get_full_rows (placeGrid m.grid p), ∀ x < 10,
        cellN (m.lock p).2.grid r x = 0)
    ∧ (∀ i < 40, i ∉ get_full_rows (placeGrid m.grid p) →
        (m.lock p).2.grid.getD i [] = (placeGrid m.grid p).getD i [])
    ∧ ((m.lock p).2.update d).clearing = none
    ∧ WF ((m.lock p).2.update d).grid
    ∧ (∀ i < 40, i ∉ get_full_rows (placeGrid m.grid p) →
        ((m.lock p).2.update d).grid.getD
          (i + ((get_full_rows (placeGrid m.grid p)).filter (fun r => i < r)).length) []
          = (m.lock p).2.grid.getD i []) := by
  have hlock : m.lock p =
      (true, ⟨erase_rows (placeGrid m.grid p) (get_full_rows (placeGrid m.grid p)),
        some (get_full_rows (placeGrid m.grid p), 0)⟩) := by
    unfold Playfield.lock clear_full_rows
    rw [if_neg hv]
  have hupd : ((⟨erase_rows (placeGrid m.grid p) (get_full_rows (placeGrid m.grid p)),
      some (get_full_rows (placeGrid m.grid p), 0)⟩ : Playfield).update d)
      = ⟨collapse_rows (erase_rows (placeGrid m.grid p) (get_full_rows (placeGrid m.grid p)))
          (get_full_rows (placeGrid m.grid p)), none⟩ := by
    unfold Playfield.update
    simp only []
    rw [if_pos (by omega)]
  have hwfp : WF (placeGrid m.grid p) := WF_placeGrid m.grid p hwf
  have hwfe : WF (erase_rows (placeGrid m.grid p) (get_full_rows (placeGrid m.grid p))) :=
    WF_erase_rows _ _ hwfp
  have hlen : (erase_rows (placeGrid m.grid p) (get_full_rows (placeGrid m.grid p))).length = 40 :=
    hwfe.1
  rw [hlock]
  refine ⟨rfl, rfl, ?_, ?_, ?_, ?_, ?_⟩
  · intro r hr x hx
    exact erase_rows_zero _ _ r hr x hx
  · intro i hi hni
    exact erase_rows_getD_not_mem _ _ i hni
  · rw [hupd]
  · rw [hupd]
    exact WF_collapse_rows _ _ hwfe (get_full_rows_lt _)
  · intro i hi hni
    rw [hupd]
    exact collapse_rows_getD _ _ (get_full_rows_pairwise _)
      (fun r hr => by rw [hlen]; exact get_full_rows_lt _ r hr)
      i (by omega) hni

/-- Witness for `lock_clear_collapse`: locking the example domino completes
the bottom row of the example field; `update` after 501 ms collapses it. -/
theorem lock_clear_collapse_witness :
    (WF exM.grid
      ∧ ¬ bboxOut exPiece
      ∧ ¬ (exPiece.y + exPiece.grid.offset_y + exPiece.grid.height ≤ VANISH)
      ∧ 0 < (get_full_rows (placeGrid exM.grid exPiece)).length
      ∧ 500 < 501)
    ∧ ((exM.lock exPiece).1 = true
      ∧ (exM.lock exPiece).2.clearing = some (get_full_rows (placeGrid exM.grid exPiece), 0)
      ∧ (∀ r ∈ get_full_rows (placeGrid exM.grid exPiece), ∀ x < 10,
          cellN (exM.lock exPiece).2.grid r x = 0)
      ∧ (∀ i < 40, i ∉ get_full_rows (placeGrid exM.grid exPiece) →
          (exM.lock exPiece).2.grid.getD i [] = (placeGrid exM.grid exPiece).getD i [])
      ∧ ((exM.lock exPiece).2.update 501).clearing = none
      ∧ WF ((exM.lock exPiece).2.update 501).grid
      ∧ (∀ i < 40, i ∉ get_full_rows (placeGrid exM.grid exPiece) →
          ((exM.lock exPiece).2.update 501).grid.getD
            (i + ((get_full_rows (placeGrid exM.grid exPiece)).filter
              (fun r => i < r)).length) []
            = (exM.lock exPiece).2.grid.getD i [])) :=
  ⟨⟨by decide, by decide, by decide, by decide, by decide⟩,
    lock_clear_collapse exM exPiece 501 (by decide) (by decide) (by decide)
      (by decide) (by decide)⟩

/-! ## Score (`score.rs`) -/

/-- `score.rs` `Score`: cumulative score, the value recorded for the last
line clear (back-to-back test), and the optional combo counter. -/
structure Score where
  score : Int
  last_clear : Int
  combo : Option Int
deriving DecidableEq

/-- `Score::default()`: all fields zero / absent. -/
def Score.default : Score := ⟨0, 0, none⟩

/-- `Score::soft_drop`. -/
def Score.soft_drop (s : Score) (rows : Int) : Score :=
  { s with score := s.score + rows }

/-- `Score::hard_drop`. -/
def Score.hard_drop (s : Score) (rows : Int) : Score :=
  { s with score := s.score + rows * 2 }

/-- `Score::reset_combo`. -/
def Score.reset_combo (s : Score) : Score := { s with combo := none }

/-- `Score::lock`: base value from the `(rows, t_spin)` table, a 50 % boost
when the previous recorded clear was ≥ 800 and the current base is ≥ 800,
then the combo bonus.  The Rust `if let Some(mut combo) = self.combo`
increments a by-value copy of the counter, so `self.combo` itself is left
unchanged in that branch — the embedding reproduces this faithfully. -/
def Score.lock (s : Score) (rows : Int) (t_spin : Bool) : Score :=
  let score0 : Int :=
    if rows = 1 ∧ t_spin = false then 100
    else if rows = 1 ∧ t_spin = true then 800
    else if rows = 2 ∧ t_spin = false then 300
    else if rows = 2 ∧ t_spin = true then 1200
    else if rows = 3 ∧ t_spin = false then 500
    else if rows = 3 ∧ t_spin = true then 1600
    else if rows = 4 ∧ t_spin = false then 800
    else 0
  let last_hard := 800 ≤ s.last_clear
  let score1 := if last_hard ∧ 800 ≤ score0 then score0 + score0 / 2 else score0
  match s.combo with
  | some combo =>
    { score := s.score + (score1 + 50 * (combo + 1)),
      last_clear := score1 + 50 * (combo + 1),
      combo := some combo }
  | none =>
    { score := s.score + score1, last_clear := score1, combo := some 0 }

/-! ## C5: the scoring table and the back-to-back boost -/

/-- C5: with no combo running, `Score::lock` adds exactly the base value of
the fixed table (non-spin 1/2/3/4 rows → 100/300/500/800; t-spin 1/2/3 rows
→ 800/1200/1600), and when the previous clear's recorded value was ≥ 800 the
added value is boosted by 50 % exactly when the current base value is also
≥ 800 — in particular a non-spin single after a non-hard clear adds 100 and
a 4-row clear adds 800 (1200 when back-to-back). -/
theorem score_lock_table (s : Score) (hc : s.combo = none) :
    (s.last_clear < 800 →
      ((s.lock 1 false).score = s.score + 100
      ∧ (s.lock 2 false).score = s.score + 300
      ∧ (s.lock 3 false).score = s.score + 500
      ∧ (s.lock 4 false).score = s.score + 800
      ∧ (s.lock 1 true).score = s.score + 800
      ∧ (s.lock 2 true).score = s.score + 1200
      ∧ (s.lock 3 true).score = s.score + 1600))
    ∧ (800 ≤ s.last_clear →
      ((s.lock 1 false).score = s.score + 100
      ∧ (s.lock 4 false).score = s.score + 1200
      ∧ (s.lock 1 true).score = s.score + 1200
      ∧ (s.lock 2 true).score = s.score + 1800
      ∧ (s.lock 3 true).score = s.score + 2400)) := by
  constructor
  · intro hlc
    have hn : ¬ (800 ≤ s.last_clear) := by omega
    refine ⟨?_, ?_, ?_, ?_, ?_, ?_, ?_⟩ <;>
      simp [Score.lock, hc, hn]
  · intro hlc
    refine ⟨?_, ?_, ?_, ?_, ?_⟩ <;>
      simp [Score.lock, hc, hlc]

/-- Witness for `score_lock_table` at the default score state. -/
theorem score_lock_table_witness :
    Score.default.combo = none
    ∧ (Score.default.last_clear < 800 →
      ((Score.default.lock 1 false).score = Score.default.score + 100
      ∧ (Score.default.lock 2 false).score = Score.default.score + 300
      ∧ (Score.default.lock 3 false).score = Score.default.score + 500
      ∧ (Score.default.lock 4 false).score = Score.default.score + 800
      ∧ (Score.default.lock 1 true).score = Score.default.score + 800
      ∧ (Score.default.lock 2 true).score = Score.default.score + 1200
      ∧ (Score.default.lock 3 true).score = Score.default.score + 1600))
    ∧ (800 ≤ Score.default.last_clear →
      ((Score.default.lock 1 false).score = Score.default.score + 100
      ∧ (Score.default.lock 4 false).score = Score.default.score + 1200
      ∧ (Score.default.lock 1 true).score = Score.default.score + 1200
      ∧ (Score.default.lock 2 true).score = Score.default.score + 1800
      ∧ (Score.default.lock 3 true).score = Score.default.score + 2400)) :=
  ⟨rfl, (score_lock_table Score.default rfl).1, (score_lock_table Score.default rfl).2⟩

/-! ## C6: the combo counter never advances (code bug) -/

/-- C6 (code bug evidence): three consecutive 1-row clears from the default
state.  The Rust `if let Some(mut combo) = self.combo { combo += 1; ... }`
increments a by-value copy, so the stored counter stays `Some(0)` forever
and every consecutive clear after the first adds a flat 50 bonus: the second
clear totals 150 and the third again 150 (total 400), where an incrementing
counter would make the third clear total 200 (total 450) with the counter
at 2. -/
theorem score_combo_counter_stuck :
    (Score.default.lock 1 false).score = 100
    ∧ (Score.default.lock 1 false).combo = some 0
    ∧ ((Score.default.lock 1 false).lock 1 false).score = 250
    ∧ ((Score.default.lock 1 false).lock 1 false).combo = some 0
    ∧ (((Score.default.lock 1 false).lock 1 false).lock 1 false).score = 400
    ∧ (((Score.default.lock 1 false).lock 1 false).lock 1 false).combo = some 0
    ∧ (((Score.default.lock 1 false).lock 1 false).lock 1 false).score ≠ 450
    ∧ (((Score.default.lock 1 false).lock 1 false).lock 1 false).combo ≠ some 2 := by
  decide

/-- The clear-less-lock half of C6 holds: `Score::reset_combo` sets the
combo counter to absent. -/
theorem score_reset_combo (s : Score) : (s.reset_combo).combo = none := rfl

/-! ## Shapes, bag, holder (`holder.rs`; `shape.rs`/`bag.rs` are modelled) -/

/-- The 7 canonical tetromino identifiers (`ShapeType`). -/
inductive ShapeType
  | I | O | T | S | Z | J | L
deriving DecidableEq

/-- Modelled from the spec: `shape.rs` is not among the sources.  `Holder`
stores a `Shape` built with `Shape::new(shape_type)` and reads back only its
`shape_type` field, so the model keeps exactly that field. -/
structure Shape where
  shape_type : ShapeType
deriving DecidableEq

/-- Modelled from the spec: `bag.rs` is not among the sources.  The bag is a
seeded randomizer whose output sequence is fully determined by the seed and
by how many elements have been popped; we model that determinism as a fixed
supply function from pop-count to shape, plus the pop cursor. -/
structure Bag where
  supply : Nat → ShapeType
  popped : Nat

/-- Modelled from the spec: `Bag::pop` returns the next shape of the
seed-determined sequence and advances the cursor. -/
def Bag.pop (b : Bag) : ShapeType × Bag :=
  (b.supply b.popped, ⟨b.supply, b.popped + 1⟩)

/-- `holder.rs` `Holder`: the optional held shape and the one-hold lock. -/
structure Holder where
  shape : Option Shape
  locked : Bool

/-- `Holder::new()` / `Holder::default()`. -/
def Holder.new : Holder := ⟨none, false⟩

/-- `Holder::hold`: refuse when locked; otherwise lock, swap the stored
shape with `Shape::new(shape_type)`, and return the previously stored
shape's type, or a freshly popped bag shape when the holder was empty.
Returns `(returned shape, holder, bag)`. -/
def Holder.hold (h : Holder) (shape_type : ShapeType) (b : Bag) :
    Option ShapeType × Holder × Bag :=
  if h.locked then (none, h, b)
  else
    let h' : Holder := ⟨some ⟨shape_type⟩, true⟩
    match h.shape with
    | some s => (some s.shape_type, h', b)
    | none => (some (b.pop).1, h', (b.pop).2)

/-- `Holder::unlock`. -/
def Holder.unlock (h : Holder) : Holder := { h with locked := false }

/-! ## C7: hold is a guarded swap and idempotent while locked -/

/-- C7: if the holder is locked, `Holder::hold` returns `None` and leaves
holder and bag untouched; otherwise it sets the lock, stores the given
shape, and returns the previously held shape (bag untouched) or, when the
holder was empty, a freshly popped bag shape — hence a second `hold` between
two locks has no effect. -/
theorem holder_hold_spec (h : Holder) (t t' : ShapeType) (b : Bag) :
    (h.locked = true → h.hold t b = (none, h, b))
    ∧ (h.locked = false →
        ((h.hold t b).2.1.locked = true
        ∧ (h.hold t b).2.1.shape = some ⟨t⟩
        ∧ (∀ s, h.shape = some s → (h.hold t b).1 = some s.shape_type ∧ (h.hold t b).2.2 = b)
        ∧ (h.shape = none → (h.hold t b).1 = some (b.pop).1 ∧ (h.hold t b).2.2 = (b.pop).2)
        ∧ (h.hold t b).2.1.hold t' (h.hold t b).2.2
            = (none, (h.hold t b).2.1, (h.hold t b).2.2))) := by
  obtain ⟨hs, hl⟩ := h
  constructor
  · intro hlk
    cases hlk
    rfl
  · intro hlk
    cases hlk
    cases hs with
    | none =>
      refine ⟨rfl, rfl, ?_, ?_, rfl⟩
      · intro s hsome
        cases hsome
      · intro _
        exact ⟨rfl, rfl⟩
    | some s =>
      refine ⟨rfl, rfl, ?_, ?_, rfl⟩
      · intro s' hsome
        cases hsome
        exact ⟨rfl, rfl⟩
      · intro habs
        cases habs

/-- Witness for `holder_hold_spec`: holding from a fresh (unlocked, empty)
holder with a constant-supply bag. -/
theorem holder_hold_spec_witness :
    Holder.new.locked = false
    ∧ ((Holder.new.hold ShapeType.T ⟨fun _ => ShapeType.I, 0⟩).2.1.locked = true
      ∧ (Holder.new.hold ShapeType.T ⟨fun _ => ShapeType.I, 0⟩).2.1.shape
          = some ⟨ShapeType.T⟩
      ∧ (∀ s, Holder.new.shape = some s →
          (Holder.new.hold ShapeType.T ⟨fun _ => ShapeType.I, 0⟩).1 = some s.shape_type
          ∧ (Holder.new.hold ShapeType.T ⟨fun _ => ShapeType.I, 0⟩).2.2
              = ⟨fun _ => ShapeType.I, 0⟩)
      ∧ (Holder.new.shape = none →
          (Holder.new.hold ShapeType.T ⟨fun _ => ShapeType.I, 0⟩).1
              = some ((⟨fun _ => ShapeType.I, 0⟩ : Bag).pop).1
          ∧ (Holder.new.hold ShapeType.T ⟨fun _ => ShapeType.I, 0⟩).2.2
              = ((⟨fun _ => ShapeType.I, 0⟩ : Bag).pop).2)
      ∧ (Holder.new.hold ShapeType.T ⟨fun _ => ShapeType.I, 0⟩).2.1.hold ShapeType.S
            ((Holder.new.hold ShapeType.T ⟨fun _ => ShapeType.I, 0⟩).2.2)
          = (none, (Holder.new.hold ShapeType.T ⟨fun _ => ShapeType.I, 0⟩).2.1,
              (Holder.new.hold ShapeType.T ⟨fun _ => ShapeType.I, 0⟩).2.2)) :=
  ⟨rfl, (holder_hold_spec Holder.new ShapeType.T ShapeType.S ⟨fun _ => ShapeType.I, 0⟩).2 rfl⟩

/-! ## Actions and the action queue (`gameplay.rs`) -/

/-- `action.rs` `Action` as consumed by `gameplay.rs` (the name `Action` is
taken by Mathlib): the closed set of discrete game intents. -/
inductive Act
  | MoveLeft | MoveRight | MoveDown
  | RotateClockwise | RotateCounterClockwise
  | SoftDrop | HardDrop | HoldPiece
  | FallPiece | LockPiece | GameOver
deriving DecidableEq

/-- `Gameplay::action`: immediate actions are pushed to the front of the
`VecDeque`, external ones to the back. -/
def enqueueAction (q : List Act) (a : Act) (immediate : Bool) : List Act :=
  if immediate then a :: q else q ++ [a]

/-- The order in which `Gameplay::update`'s drain loop pops actions
(`while let Some(action) = self.actions.pop_front()`). -/
def drainOrder : List Act → List Act
  | [] => []
  | a :: rest => a :: drainOrder rest

theorem drainOrder_eq (q : List Act) : drainOrder q = q := by
  induction q with
  | nil => rfl
  | cons a rest ih => rw [drainOrder, ih]

theorem enqueue_external_all (ext : List Act) (q : List Act) :
    ext.foldl (fun acc x => enqueueAction acc x false) q = q ++ ext := by
  induction ext generalizing q with
  | nil => simp
  | cons a rest ih =>
    show rest.foldl (fun acc x => enqueueAction acc x false) (q ++ [a]) = q ++ a :: rest
    rw [ih]
    simp

/-! ## C8: immediate actions preempt the FIFO queue -/

/-- C8: an action enqueued as immediate lands at the front of the queue and
is drained before every previously enqueued external action, while external
actions are appended at the back and drained strictly in FIFO order: a queue
built by external enqueues drains exactly in enqueue order, and an immediate
enqueue on top of it drains first. -/
theorem action_queue_spec (q ext : List Act) (a : Act) :
    enqueueAction q a true = a :: q
    ∧ enqueueAction q a false = q ++ [a]
    ∧ drainOrder (ext.foldl (fun acc x => enqueueAction acc x false) []) = ext
    ∧ drainOrder (enqueueAction
        (ext.foldl (fun acc x => enqueueAction acc x false) []) a true) = a :: ext := by
  refine ⟨rfl, rfl, ?_, ?_⟩
  · rw [drainOrder_eq, enqueue_external_all]
    rfl
  · rw [drainOrder_eq]
    show a :: (ext.foldl (fun acc x => enqueueAction acc x false) []) = a :: ext
    rw [enqueue_external_all]
    rfl

/-! ## Session controller (`gameplay.rs`)

`gameplay.rs` drives components from `piece.rs`, `stack.rs` and `bag.rs`,
which are not among the sources.  The session controller itself is embedded
directly from `gameplay.rs`; the missing components enter as an explicit
interface `GameEnv` (modelled from the spec) carrying exactly the operations
`gameplay.rs` invokes on them, each as a pure state-passing function. -/

/-- `stack.rs` `Locked` as matched in `gameplay.rs`: a lock either reports a
vanish-zone collision or succeeds with the number of cleared rows. -/
inductive Locked
  | collision
  | success (rows : Int)

/-- Modelled from the spec: the component interface of the modules absent
from the sources (`piece.rs`, `stack.rs`), with the exact signatures
`gameplay.rs` uses.  `Option` results stand for the Rust methods that return
`bool` and mutate in place only on success. -/
structure GameEnv where
  Piece : Type
  Stack : Type
  pieceNew : ShapeType → Stack → Piece
  pieceShift : Piece → Int → Int → Stack → Option Piece
  pieceRotate : Piece → Bool → Stack → Option Piece
  pieceFall : Piece → Stack → Int × Piece
  pieceTouchingFloor : Piece → Stack → Bool
  pieceTSpin : Piece → Stack → Bool
  pieceShape : Piece → ShapeType
  pieceUpdate : Piece → Nat → Stack → Piece
  pieceLocking : Piece → Nat
  stackInit : Stack
  stackLock : Stack → Piece → Nat → Locked × Stack
  stackCollision : Stack → Piece → Bool
  stackBlocked : Stack → Bool
  stackUpdate : Stack → Nat → Stack
  stackGameOver : Stack → Stack
  stackField : Stack → Grid
  bagNew : List Nat → Bag

/-- The configurable durations `gameplay.rs` reads from the settings. -/
structure GameConfig where
  clear_delay : Nat
  lock_delay : Nat

/-- The `Gameplay` session state (`gameplay.rs`), presentation-only fields
(fonts, popups, explosions, block skins) omitted. -/
structure Gameplay (E : GameEnv) where
  interactive : Bool
  action_duration : Nat
  actions : List Act
  replay : List (Act × Nat)
  stack : E.Stack
  bag : Bag
  piece : E.Piece
  holder : Holder
  score : Score
  game_over : Bool
  falling : Nat
  fall_interval : Nat
  countdown : Option Int
  countdown_switch : Nat

/-- `Gameplay::new`: pop the first piece from the freshly seeded bag; 1 s
fall interval; countdown from 4. -/
def Gameplay.new (E : GameEnv) (interactive : Bool) (seed : List Nat) : Gameplay E :=
  let stack := E.stackInit
  let pb := (E.bagNew seed).pop
  { interactive := interactive, action_duration := 0, actions := [], replay := [],
    stack := stack, bag := pb.2, piece := E.pieceNew pb.1 stack,
    holder := Holder.new, score := Score.default, game_over := false,
    falling := 0, fall_interval := 1000, countdown := some 4, countdown_switch := 0 }

/-- `Gameplay::reset_fall`. -/
def Gameplay.reset_fall {E : GameEnv} (s : Gameplay E) : Gameplay E :=
  if s.fall_interval < s.falling then { s with falling := s.falling - s.fall_interval }
  else { s with falling := 0 }

/-- `Gameplay::process_movement_action` (sound effects omitted). -/
def Gameplay.process_movement_action {E : GameEnv} (s : Gameplay E) (a : Act) :
    Gameplay E :=
  match a with
  | .MoveRight =>
    match E.pieceShift s.piece 1 0 s.stack with
    | some p' =>
      let s' := { s with piece := p' }
      if E.pieceTouchingFloor p' s'.stack then s'.reset_fall else s'
    | none => s
  | .MoveLeft =>
    match E.pieceShift s.piece (-1) 0 s.stack with
    | some p' =>
      let s' := { s with piece := p' }
      if E.pieceTouchingFloor p' s'.stack then s'.reset_fall else s'
    | none => s
  | .MoveDown =>
    match E.pieceShift s.piece 0 1 s.stack with
    | some p' => ({ s with piece := p' }).reset_fall
    | none => s
  | .RotateClockwise =>
    match E.pieceRotate s.piece true s.stack with
    | some p' =>
      let s' := { s with piece := p' }
      if E.pieceTouchingFloor p' s'.stack then s'.reset_fall else s'
    | none => s
  | .RotateCounterClockwise =>
    match E.pieceRotate s.piece false s.stack with
    | some p' =>
      let s' := { s with piece := p' }
      if E.pieceTouchingFloor p' s'.stack then s'.reset_fall else s'
    | none => s
  | .SoftDrop =>
    let fp := E.pieceFall s.piece s.stack
    if 0 < fp.1 then
      let s' := ({ s with piece := fp.2 }).reset_fall
      { s' with score := s'.score.soft_drop fp.1 }
    else { s with piece := fp.2 }
  | .HardDrop =>
    let fp := E.pieceFall s.piece s.stack
    let s' := { s with piece := fp.2, score := s.score.hard_drop fp.1 }
    if s'.interactive then { s' with actions := .LockPiece :: s'.actions } else s'
  | _ => s

/-- `Gameplay::process_action` (sound, popups and explosions omitted).
Returns the new state and the Rust `bool` that tells the drain loop whether
to continue. -/
def Gameplay.process_action {E : GameEnv} (cfg : GameConfig) (s : Gameplay E)
    (a : Act) : Gameplay E × Bool :=
  match a with
  | .HoldPiece =>
    match s.holder.hold (E.pieceShape s.piece) s.bag with
    | (some shape, h', b') =>
      ({ s with piece := E.pieceNew shape s.stack, holder := h', bag := b' }, true)
    | (none, h', b') => ({ s with holder := h', bag := b' }, true)
  | .FallPiece =>
    match E.pieceShift s.piece 0 1 s.stack with
    | some p' => ({ s with piece := p' }, true)
    | none =>
      if s.interactive then ({ s with actions := .LockPiece :: s.actions }, true)
      else (s, true)
  | .LockPiece =>
    match E.stackLock s.stack s.piece cfg.clear_delay with
    | (.collision, st') =>
      if s.interactive then ({ s with stack := st', actions := .GameOver :: s.actions }, true)
      else ({ s with stack := st' }, true)
    | (.success rows, st') =>
      let s1 := { s with stack := st' }
      let s2 :=
        if 0 < rows then
          { s1 with score := s1.score.lock rows (E.pieceTSpin s1.piece s1.stack) }
        else { s1 with score := s1.score.reset_combo }
      let pb := s2.bag.pop
      let p' := E.pieceNew pb.1 s2.stack
      let s3 := { s2 with bag := pb.2, piece := p' }
      let s4 :=
        if E.stackCollision s3.stack p' ∧ s3.interactive then
          { s3 with actions := .GameOver :: s3.actions }
        else
          let s' := s3.reset_fall
          { s' with holder := s'.holder.unlock }
      if E.stackBlocked s4.stack then (s4, false) else (s4, true)
  | .GameOver =>
    ({ s with game_over := true, stack := E.stackGameOver s.stack }, false)
  | _ => (s.process_movement_action a, true)

/-- An upper bound on how much queue work one drained action can cause:
`HardDrop`/`FallPiece` may push `LockPiece`, which may push `GameOver`,
which stops the drain.  Used only to size the drain fuel. -/
def actRank : Act → Nat
  | .GameOver => 1
  | .LockPiece => 2
  | .FallPiece => 3
  | .HardDrop => 3
  | _ => 1

/-- Total rank of a queue: a sound fuel bound for the drain loop. -/
def queueFuel : List Act → Nat
  | [] => 0
  | a :: rest => actRank a + queueFuel rest

/-- The drain loop of `Gameplay::update`: pop the front action, append it to
the replay log with the elapsed time since the previous processed action,
process it, and stop early when `process_action` returns `false`.  The fuel
is computed from the queue (`queueFuel q + 1` always suffices, since every
front-pushed action has smaller rank than the action that pushed it), so the
function is total and deterministic. -/
def Gameplay.drain {E : GameEnv} (cfg : GameConfig) :
    Nat → Gameplay E → Gameplay E
  | 0, s => s
  | fuel + 1, s =>
    match s.actions with
    | [] => s
    | a :: rest =>
      let s1 := { s with
        actions := rest
        replay := s.replay ++ [(a, s.action_duration)]
        action_duration := 0 }
      match s1.process_action cfg a with
      | (s2, true) => Gameplay.drain cfg fuel s2
      | (s2, false) => s2

/-- `Gameplay::update` with the frame's time delta (imgui debug hooks, skin
switching, popups and sound omitted): countdown bookkeeping, stack
animation, the paused gate, the drain loop, the piece's lock-delay timer,
and the interactive fall/lock scheduling. -/
def Gameplay.update {E : GameEnv} (cfg : GameConfig) (s : Gameplay E)
    (delta : Nat) : Gameplay E :=
  let s0 :=
    match s.countdown with
    | none => s
    | some c =>
      let cs := (if c = 4 then 1000 else s.countdown_switch) + delta
      if 1000 ≤ cs then
        { s with
          countdown_switch := 0
          countdown := if c - 1 = 0 then none else some (c - 1) }
      else { s with countdown_switch := cs }
  let s1 := { s0 with stack := E.stackUpdate s0.stack delta }
  if s1.game_over ∨ s1.countdown.isSome ∨ E.stackBlocked s1.stack then s1
  else
    let s2 := { s1 with action_duration := s1.action_duration + delta }
    let s3 := Gameplay.drain cfg (queueFuel s2.actions + 1) s2
    let s4 := { s3 with piece := E.pieceUpdate s3.piece delta s3.stack }
    if s4.interactive then
      if cfg.lock_delay < E.pieceLocking s4.piece then
        { s4 with actions := .LockPiece :: s4.actions }
      else
        let f := s4.falling + delta
        if s4.fall_interval ≤ f then
          { s4 with
            falling := f - s4.fall_interval
            actions := .FallPiece :: s4.actions }
        else { s4 with falling := f }
    else s4

/-- A whole session: construct from the seed, then per log entry enqueue the
external action and run `update` with that entry's time delta. -/
def Gameplay.run (E : GameEnv) (cfg : GameConfig) (interactive : Bool)
    (seed : List Nat) (log : List (Act × Nat)) : Gameplay E :=
  log.foldl
    (fun s e => Gameplay.update cfg { s with actions := enqueueAction s.actions e.1 false } e.2)
    (Gameplay.new E interactive seed)

/-! ## C3: replay determinism -/

/-- C3: the session step function is deterministic in the seed and the
ordered (action, elapsed-time) log — for any component implementation, two
sessions constructed with the same seed and fed the identical log end with
bit-identical field contents and the same score. -/
theorem replay_deterministic (E : GameEnv) (cfg : GameConfig) (interactive : Bool)
    (seed : List Nat) (log : List (Act × Nat)) (s1 s2 : Gameplay E)
    (h1 : s1 = Gameplay.run E cfg interactive seed log)
    (h2 : s2 = Gameplay.run E cfg interactive seed log) :
    E.stackField s1.stack = E.stackField s2.stack
    ∧ s1.score.score = s2.score.score := by
  subst h1
  subst h2
  exact ⟨rfl, rfl⟩

/-! ## A concrete component instantiation (for witnessing) -/

/-- Rendering value of each shape (any injective assignment serves). -/
def shapeVal : ShapeType → Nat
  | .I => 1 | .O => 2 | .T => 3 | .S => 4 | .Z => 5 | .J => 6 | .L => 7

/-- Shape of a bag index. -/
def shapeOf : Nat → ShapeType
  | 0 => .I | 1 => .O | 2 => .T | 3 => .S | 4 => .Z | 5 => .J | _ => .L

/-- Modelled from the spec: a spawned piece sits at the top of the field in
its spawn rotation (`piece.rs` is absent; a single-cell bounding box keeps
the demonstration small). -/
def demoSpawn (t : ShapeType) : Piece :=
  { x := 4, y := 19,
    grid := { offset_x := 0, offset_y := 0, width := 1, height := 1, grid := [[shapeVal t]] } }

/-- Modelled from the spec: `Piece::fall` shifts down one cell at a time
until blocked and reports the distance; 40 rows bound the descent. -/
def demoFall (st : Playfield) : Nat → Piece → Int × Piece
  | 0, p => (0, p)
  | n + 1, p =>
    if st.collision (shifted p 0 1) then (0, p)
    else
      let r := demoFall st n (shifted p 0 1)
      (r.1 + 1, r.2)

/-- A concrete `GameEnv` built over the `matrix.rs` playfield embedding,
with the spec-modelled piece operations above; it exists to instantiate the
parametric session theorems on runnable data. -/
def DemoEnv : GameEnv where
  Piece := Piece × ShapeType
  Stack := Playfield
  pieceNew := fun t _ => (demoSpawn t, t)
  pieceShift := fun p dx dy st =>
    if st.collision (shifted p.1 dx dy) then none else some (shifted p.1 dx dy, p.2)
  pieceRotate := fun _ _ _ => none
  pieceFall := fun p st =>
    let r := demoFall st 40 p.1
    (r.1, (r.2, p.2))
  pieceTouchingFloor := fun p st => st.collision (shifted p.1 0 1)
  pieceTSpin := fun _ _ => false
  pieceShape := fun p => p.2
  pieceUpdate := fun p _ _ => p
  pieceLocking := fun _ => 0
  stackInit := ⟨List.replicate 40 (List.replicate 10 0), none⟩
  stackLock := fun st p _ =>
    match st.lock p.1 with
    | (false, st') => (.collision, st')
    | (true, st') =>
      match st'.clearing with
      | some (rows, _) => (.success (rows.length : Int), st')
      | none => (.success 0, st')
  stackCollision := fun st p => st.collision p.1
  stackBlocked := fun st => st.blocked
  stackUpdate := fun st d => st.update d
  stackGameOver := fun st => st
  stackField := fun st => st.grid
  bagNew := fun seed => ⟨fun n => shapeOf ((seed.headD 0 + n) % 7), 0⟩

/-- A small demonstration log: a hard drop after the countdown, then a
lateral move. -/
def demoLog : List (Act × Nat) :=
  [(.MoveLeft, 1100), (.MoveLeft, 1100), (.MoveLeft, 1100), (.MoveLeft, 1100),
    (.HardDrop, 200), (.MoveRight, 16)]

/-- The default configuration: 500 ms clear delay, 500 ms lock delay. -/
def demoCfg : GameConfig := ⟨500, 500⟩

/-- Witness for `replay_deterministic`: two runs of the demonstration
session from seed byte 7 coincide on field and score. -/
theorem replay_deterministic_witness :
    (Gameplay.run DemoEnv demoCfg true [7] demoLog
        = Gameplay.run DemoEnv demoCfg true [7] demoLog)
    ∧ (DemoEnv.stackField (Gameplay.run DemoEnv demoCfg true [7] demoLog).stack
          = DemoEnv.stackField (Gameplay.run DemoEnv demoCfg true [7] demoLog).stack
      ∧ (Gameplay.run DemoEnv demoCfg true [7] demoLog).score.score
          = (Gameplay.run DemoEnv demoCfg true [7] demoLog).score.score) :=
  ⟨rfl, replay_deterministic DemoEnv demoCfg true [7] demoLog _ _ rfl rfl⟩

/-! ## The older session (`game.rs`) and C9: unlock per successful lock -/

/-- `game.rs` `Game`: the session built on the `matrix.rs` playfield
(rendering, input bindings, music and particle fields omitted). -/
structure Game where
  matrix : Playfield
  bag : Bag
  piece : Piece
  holder : Holder
  game_over : Bool
  still : Nat
  fall_interval : Nat

/-- `Game::reset_fall`. -/
def Game.reset_fall (g : Game) : Game :=
  if g.fall_interval < g.still then { g with still := g.still - g.fall_interval }
  else { g with still := 0 }

/-- `Game::lock_piece`.  `Piece::new(bag.pop())` lives in the absent
`piece.rs`, so the spawn function is passed in (modelled from the spec: it
places the popped shape at the top of the field).  The returned `Nat`
counts the `Holder::unlock` invocations this call performs (0 or 1),
mirroring the Rust control flow exactly: on lock failure set game-over; on
success spawn the next piece, and either set game-over (spawn collision) or
reset the fall timer and unlock the holder. -/
def Game.lock_piece (spawn : ShapeType → Piece) (g : Game) : Game × Nat :=
  match g.matrix.lock g.piece with
  | (false, m') => ({ g with matrix := m', game_over := true }, 0)
  | (true, m') =>
    let pb := g.bag.pop
    let p' := spawn pb.1
    let g1 := { g with matrix := m', bag := pb.2, piece := p' }
    if g1.matrix.collision p' then ({ g1 with game_over := true }, 0)
    else
      let g2 := g1.reset_fall
      ({ g2 with holder := g2.holder.unlock }, 1)

/-- An empty field row. -/
def emptyRow : List Nat := List.replicate 10 0

/-- A field empty except for one occupied cell at row 20, column 4 — right
where the next piece will spawn. -/
def c9Grid : Grid :=
  (List.replicate 20 emptyRow) ++ ([[0, 0, 0, 0, 1, 0, 0, 0, 0, 0]] ++ List.replicate 19 emptyRow)

/-- A single-cell piece resting on the floor; locking it succeeds. -/
def c9BottomPiece : Piece :=
  { x := 0, y := 39,
    grid := { offset_x := 0, offset_y := 0, width := 1, height := 1, grid := [[1]] } }

/-- Modelled from the spec: spawn at the top of the visible field. -/
def c9Spawn : ShapeType → Piece := fun t =>
  { x := 4, y := 20,
    grid := { offset_x := 0, offset_y := 0, width := 1, height := 1, grid := [[shapeVal t]] } }

/-- A session whose next spawn collides: the holder is currently locked (a
hold was used for the piece in play). -/
def c9Game : Game :=
  { matrix := ⟨c9Grid, none⟩, bag := ⟨fun _ => ShapeType.I, 0⟩,
    piece := c9BottomPiece, holder := ⟨none, true⟩,
    game_over := false, still := 0, fall_interval := 1000 }

/-- The same session over an empty field: the next spawn is free. -/
def c9GameOk : Game :=
  { matrix := ⟨List.replicate 40 emptyRow, none⟩, bag := ⟨fun _ => ShapeType.I, 0⟩,
    piece := c9BottomPiece, holder := ⟨none, true⟩,
    game_over := false, still := 0, fall_interval := 1000 }

/-- C9 counterexample: a lock that returns success after which the newly
spawned piece collides — the session transitions to game over and
`Holder::unlock` is never invoked (the holder stays locked), so "unlock is
invoked exactly once per successful piece lock" fails as stated. -/
theorem unlock_skipped_on_spawn_collision :
    (c9Game.matrix.lock c9Game.piece).1 = true
    ∧ (Game.lock_piece c9Spawn c9Game).2 = 0
    ∧ (Game.lock_piece c9Spawn c9Game).1.game_over = true
    ∧ (Game.lock_piece c9Spawn c9Game).1.holder.locked = true :=
  ⟨by decide, by decide, by decide, by decide⟩

/-- C9 (amended): after a successful lock, `Holder::unlock` is invoked
exactly once when the newly spawned piece does not collide, and not at all
when it does (the session then sets game over instead). -/
theorem lock_piece_unlock_spec (spawn : ShapeType → Piece) (g : Game)
    (hs : (g.matrix.lock g.piece).1 = true) :
    ((g.matrix.lock g.piece).2.collision (spawn ((g.bag.pop).1)) = true →
      (Game.lock_piece spawn g).2 = 0 ∧ (Game.lock_piece spawn g).1.game_over = true)
    ∧ ((g.matrix.lock g.piece).2.collision (spawn ((g.bag.pop).1)) = false →
      (Game.lock_piece spawn g).2 = 1
      ∧ (Game.lock_piece spawn g).1.holder.locked = false) := by
  rcases hlk : g.matrix.lock g.piece with ⟨b, m'⟩
  rw [hlk] at hs
  cases hs
  constructor
  · intro hc
    simp only at hc
    simp only [Game.lock_piece, hlk, hc]
    exact ⟨rfl, rfl⟩
  · intro hc
    simp only at hc
    simp only [Game.lock_piece, hlk, hc]
    constructor
    · rfl
    · show (Game.reset_fall _).holder.unlock.locked = false
      rfl

/-- Witness for `lock_piece_unlock_spec` at the session whose spawn is
free. -/
theorem lock_piece_unlock_spec_witness :
    (c9GameOk.matrix.lock c9GameOk.piece).1 = true
    ∧ (((c9GameOk.matrix.lock c9GameOk.piece).2.collision
          (c9Spawn ((c9GameOk.bag.pop).1)) = true →
        (Game.lock_piece c9Spawn c9GameOk).2 = 0
        ∧ (Game.lock_piece c9Spawn c9GameOk).1.game_over = true)
      ∧ ((c9GameOk.matrix.lock c9GameOk.piece).2.collision
          (c9Spawn ((c9GameOk.bag.pop).1)) = false →
        (Game.lock_piece c9Spawn c9GameOk).2 = 1
        ∧ (Game.lock_piece c9Spawn c9GameOk).1.holder.locked = false)) :=
  ⟨by decide, lock_piece_unlock_spec c9Spawn c9GameOk (by decide)⟩
